import Mathlib

/-!
Shallow embedding of the kvstore repository's durable-store core
(src/internal/store: store.go, memory_store.go, persistence.go,
persistent_store.go) and proofs about its specified behaviour.

Modelling conventions:
* Go `time.Time` values are modelled as natural numbers (a monotonic
  clock); each operation that calls `time.Now()` takes the current time
  as an explicit `now` parameter.
* Go `int64` version counters are modelled as `Int` (the claims under
  study never approach the overflow boundary).
* A Go `context.Context` is modelled by the single bit the code
  consults: whether `ctx.Done()` has fired.
* Go's `map[string]Value` is modelled as an association list with
  lookup/insert/erase mirroring map semantics.
* Errors are modelled as an inductive enumeration of the distinct error
  values the store package defines.
-/

namespace KVStore

/-- The error values of src/internal/store (store.go and persistence.go),
as distinguishable by errors.Is on the caller side. -/
inductive Err where
  | keyNotFound
  | invalidKey
  | invalidValue
  | storeClosed
  | timeoutErr
  | concurrentModification
  | ctxCanceled
  deriving DecidableEq, Repr

/-- Value from store.go: data string plus metadata. -/
structure Value where
  data : String
  createdAt : Nat
  updatedAt : Nat
  version : Int
  deriving DecidableEq, Repr

/-- The Go zero value `Value\x7b\x7d` returned alongside errors. -/
def Value.zero : Value := ⟨"", 0, 0, 0⟩

/-- StoreStats tracked by MemoryStore and embedded in snapshots. -/
structure StoreStats where
  totalKeys : Nat
  totalRequests : Nat
  getRequests : Nat
  setRequests : Nat
  deleteRequests : Nat
  deriving DecidableEq, Repr

/-- Key.Validate from store.go: a key must be non-empty, at most 255
bytes, and contain no null byte. -/
def keyValidate (k : String) : Option Err :=
  if k.utf8ByteSize = 0 then some Err.invalidKey
  else if 255 < k.utf8ByteSize then some Err.invalidKey
  else if k.data.any (fun c => c.toNat = 0) then some Err.invalidKey
  else none

/-- Association-list model of Go's `map[string]Value`. -/
abbrev KVMap := List (String × Value)

/-- Map lookup, `ms.data[string(key)]`. -/
def lookupKV : KVMap → String → Option Value
  | [], _ => none
  | (a, w) :: rest, key => if a = key then some w else lookupKV rest key

/-- Map assignment, `ms.data[string(key)] = v`. -/
def insertKV : KVMap → String → Value → KVMap
  | [], key, v => [(key, v)]
  | (a, w) :: rest, key, v =>
      if a = key then (key, v) :: rest else (a, w) :: insertKV rest key v

/-- Map deletion, `delete(ms.data, string(key))`. -/
def eraseKV : KVMap → String → KVMap
  | [], _ => []
  | (a, w) :: rest, key => if a = key then rest else (a, w) :: eraseKV rest key

/-- MemoryStore state from memory_store.go: the data map, the stats
counters, and the closed flag. -/
structure MemoryStore where
  data : KVMap
  stats : StoreStats
  closed : Bool
  deriving DecidableEq, Repr

/-- NewMemoryStore: empty map, zero stats, open. -/
def newMemoryStore : MemoryStore :=
  ⟨[], ⟨0, 0, 0, 0, 0⟩, false⟩

/-- StatType from memory_store.go. -/
inductive StatType where
  | statGet
  | statSet
  | statDelete
  deriving DecidableEq, Repr

/-- incrementStat: bump TotalRequests plus the per-kind counter. -/
def MemoryStore.incrementStat (ms : MemoryStore) (t : StatType) : MemoryStore :=
  let s := ms.stats
  let s1 : StoreStats := { s with totalRequests := s.totalRequests + 1 }
  let s2 : StoreStats :=
    match t with
    | StatType.statGet => { s1 with getRequests := s1.getRequests + 1 }
    | StatType.statSet => { s1 with setRequests := s1.setRequests + 1 }
    | StatType.statDelete => { s1 with deleteRequests := s1.deleteRequests + 1 }
  { ms with stats := s2 }

/-- updateKeyCount: TotalKeys := len(ms.data). -/
def MemoryStore.updateKeyCount (ms : MemoryStore) : MemoryStore :=
  { ms with stats := { ms.stats with totalKeys := ms.data.length } }

/-- MemoryStore.Get: validate key, check context, check closed, bump the
get counter, then look up. Returns the (possibly stats-mutated) store,
the value, and the error. -/
def MemoryStore.get (ms : MemoryStore) (ctxDone : Bool) (key : String) :
    MemoryStore × Value × Option Err :=
  match keyValidate key with
  | some e => (ms, Value.zero, some e)
  | none =>
    if ctxDone then (ms, Value.zero, some Err.ctxCanceled)
    else if ms.closed then (ms, Value.zero, some Err.storeClosed)
    else
      let ms1 := ms.incrementStat StatType.statGet
      match lookupKV ms1.data key with
      | none => (ms1, Value.zero, some Err.keyNotFound)
      | some v => (ms1, v, none)

/-- MemoryStore.Set: validate, check context, check closed, bump the set
counter, upsert (version 1 on creation, +1 on update, createdAt kept on
update, updatedAt := now), then updateKeyCount. -/
def MemoryStore.set (ms : MemoryStore) (ctxDone : Bool) (now : Nat)
    (key value : String) : MemoryStore × Option Err :=
  match keyValidate key with
  | some e => (ms, some e)
  | none =>
    if ctxDone then (ms, some Err.ctxCanceled)
    else if ms.closed then (ms, some Err.storeClosed)
    else
      let ms1 := ms.incrementStat StatType.statSet
      let newValue : Value :=
        match lookupKV ms1.data key with
        | some existing =>
            ⟨value, existing.createdAt, now, existing.version + 1⟩
        | none => ⟨value, now, now, 1⟩
      let ms2 := { ms1 with data := insertKV ms1.data key newValue }
      (ms2.updateKeyCount, none)

/-- MemoryStore.Delete: validate, check context, check closed, bump the
delete counter, remove and return the prior value (KeyNotFound when
absent). -/
def MemoryStore.delete (ms : MemoryStore) (ctxDone : Bool) (key : String) :
    MemoryStore × Value × Option Err :=
  match keyValidate key with
  | some e => (ms, Value.zero, some e)
  | none =>
    if ctxDone then (ms, Value.zero, some Err.ctxCanceled)
    else if ms.closed then (ms, Value.zero, some Err.storeClosed)
    else
      let ms1 := ms.incrementStat StatType.statDelete
      match lookupKV ms1.data key with
      | none => (ms1, Value.zero, some Err.keyNotFound)
      | some v =>
          let ms2 := { ms1 with data := eraseKV ms1.data key }
          (ms2.updateKeyCount, v, none)

/-- MemoryStore.List: check context and closed, return all keys. -/
def MemoryStore.list (ms : MemoryStore) (ctxDone : Bool) :
    MemoryStore × Option (List String) × Option Err :=
  if ctxDone then (ms, none, some Err.ctxCanceled)
  else if ms.closed then (ms, none, some Err.storeClosed)
  else (ms, some (ms.data.map Prod.fst), none)

/-- MemoryStore.ListEntries: check context and closed, return all
key-value entries. -/
def MemoryStore.listEntries (ms : MemoryStore) (ctxDone : Bool) :
    MemoryStore × Option KVMap × Option Err :=
  if ctxDone then (ms, none, some Err.ctxCanceled)
  else if ms.closed then (ms, none, some Err.storeClosed)
  else (ms, some ms.data, none)

/-- MemoryStore.Size: check context and closed, return the key count. -/
def MemoryStore.size (ms : MemoryStore) (ctxDone : Bool) :
    MemoryStore × Nat × Option Err :=
  if ctxDone then (ms, 0, some Err.ctxCanceled)
  else if ms.closed then (ms, 0, some Err.storeClosed)
  else (ms, ms.data.length, none)

/-- MemoryStore.Clear: check context and closed, replace the map with a
fresh empty one, updateKeyCount. -/
def MemoryStore.clear (ms : MemoryStore) (ctxDone : Bool) :
    MemoryStore × Option Err :=
  if ctxDone then (ms, some Err.ctxCanceled)
  else if ms.closed then (ms, some Err.storeClosed)
  else (({ ms with data := [] } : MemoryStore).updateKeyCount, none)

/-- MemoryStore.Exists: validate, check context, check closed, report
membership. -/
def MemoryStore.existsKey (ms : MemoryStore) (ctxDone : Bool) (key : String) :
    MemoryStore × Bool × Option Err :=
  match keyValidate key with
  | some e => (ms, false, some e)
  | none =>
    if ctxDone then (ms, false, some Err.ctxCanceled)
    else if ms.closed then (ms, false, some Err.storeClosed)
    else (ms, (lookupKV ms.data key).isSome, none)

/-- MemoryStore.CompareAndSwap: validate, check context, check closed;
KeyNotFound when absent; when the stored version differs from
expectedVersion return the current value with ConcurrentModification and
leave the store untouched; otherwise store and return the updated value
(new data, same createdAt, updatedAt := now, version + 1). -/
def MemoryStore.compareAndSwap (ms : MemoryStore) (ctxDone : Bool) (now : Nat)
    (key : String) (expectedVersion : Int) (newValue : String) :
    MemoryStore × Value × Option Err :=
  match keyValidate key with
  | some e => (ms, Value.zero, some e)
  | none =>
    if ctxDone then (ms, Value.zero, some Err.ctxCanceled)
    else if ms.closed then (ms, Value.zero, some Err.storeClosed)
    else
      match lookupKV ms.data key with
      | none => (ms, Value.zero, some Err.keyNotFound)
      | some currentValue =>
        if currentValue.version ≠ expectedVersion then
          (ms, currentValue, some Err.concurrentModification)
        else
          let updatedValue : Value :=
            ⟨newValue, currentValue.createdAt, now, currentValue.version + 1⟩
          ({ ms with data := insertKV ms.data key updatedValue },
           updatedValue, none)

/-- MemoryStore.Close: unconditionally mark closed, return nil error. -/
def MemoryStore.close (ms : MemoryStore) : MemoryStore × Option Err :=
  ({ ms with closed := true }, none)

/-! ## Persistence layer (persistence.go) -/

/-- StoreSnapshot from persistence.go. `data` is `Option`-wrapped to
mirror Go's distinction between a nil map (rejected by validation) and a
present, possibly empty, map. -/
structure StoreSnapshot where
  data : Option (List (String × String))
  stats : StoreStats
  version : String
  timestamp : Int
  deriving DecidableEq, Repr

/-- The validation errors produced by ValidateSnapshot for a non-nil
snapshot. -/
inductive SnapValErr where
  | dataNil
  | versionEmpty
  | timestampInvalid
  deriving DecidableEq, Repr

/-- ValidateSnapshot from persistence.go, for a non-nil snapshot: data
must be present, the version tag non-empty, the timestamp positive. -/
def validateSnapshot (s : StoreSnapshot) : Option SnapValErr :=
  if s.data.isNone then some SnapValErr.dataNil
  else if s.version = "" then some SnapValErr.versionEmpty
  else if s.timestamp ≤ 0 then some SnapValErr.timestampInvalid
  else none

/-- The distinguishable errors of JSONFilePersistence.Save. -/
inductive SaveErr where
  | nilSnapshot
  | validationFailed (e : SnapValErr)
  deriving DecidableEq, Repr

/-- The distinguishable errors of JSONFilePersistence.Load, each
standing for the distinct Go error value produced on that path. In the
Go code only the `snapshotCorrupted` case wraps ErrSnapshotCorrupted;
`unmarshalFailed` wraps the json package's error and `emptyFile` wraps a
plain fmt error, so errors.Is(err, ErrSnapshotCorrupted) is false for
both of them. -/
inductive LoadErr where
  | noSnapshotFound
  | emptyFile
  | unmarshalFailed
  | snapshotCorrupted
  deriving DecidableEq, Repr

/-- Content of the snapshot file at the configured path. The Go stdlib
encoding/json pair is modelled abstractly: `jsonOf s` stands for the
unique document json.MarshalIndent produces for `s` (always non-empty),
and json.Unmarshal succeeds exactly on such documents, returning `s`.
`emptyFile` is a zero-length file; `garbage` is non-empty content that
does not deserialize. -/
inductive FileContent where
  | jsonOf (s : StoreSnapshot)
  | emptyFile
  | garbage
  deriving DecidableEq, Repr

/-- State of the filesystem as seen by one JSONFilePersistence: the
content at its configured path, `none` when the file is absent. I/O
primitives (mkdir, temp-file write, rename) are modelled as succeeding;
the temp-write-then-rename sequence therefore collapses to one atomic
replacement of the content. -/
abbrev FileState := Option FileContent

/-- JSONFilePersistence.Save: reject a nil snapshot, validate, marshal,
then atomically replace the target file via a uniquely named temp file.
The snapshot argument is `Option`-wrapped to mirror the Go nil check. -/
def JSONFilePersistence.save (fs : FileState) (snap : Option StoreSnapshot) :
    FileState × Option SaveErr :=
  match snap with
  | none => (fs, some SaveErr.nilSnapshot)
  | some s =>
    match validateSnapshot s with
    | some e => (fs, some (SaveErr.validationFailed e))
    | none => (some (FileContent.jsonOf s), none)

/-- JSONFilePersistence.Load: NoSnapshotFound when the file is absent;
an error on empty content; a wrapped unmarshal error when the bytes do
not deserialize; SnapshotCorrupted when the deserialized snapshot fails
ValidateSnapshot; otherwise the snapshot. -/
def JSONFilePersistence.load (fs : FileState) :
    Option StoreSnapshot × Option LoadErr :=
  match fs with
  | none => (none, some LoadErr.noSnapshotFound)
  | some FileContent.emptyFile => (none, some LoadErr.emptyFile)
  | some FileContent.garbage => (none, some LoadErr.unmarshalFailed)
  | some (FileContent.jsonOf s) =>
    match validateSnapshot s with
    | some _ => (none, some LoadErr.snapshotCorrupted)
    | none => (some s, none)

/-! ## Durable store (persistent_store.go) -/

/-- Capacity of the buffered saveChannel created by NewPersistentStore
(`make(chan struct\x7b\x7d, 100)`). -/
def saveChannelCapacity : Nat := 100

/-- PersistentStore state from persistent_store.go, over a MemoryStore
and a JSONFilePersistence. `saveChannelLen` is the number of signals
buffered in saveChannel; `shutdownDone` is whether sync.Once has run;
`finalSaves` counts the completed shutdown saves, to state that the
final save happens exactly once. -/
structure PersistentStore where
  store : MemoryStore
  file : FileState
  autoSave : Bool
  saveOnShutdown : Bool
  closed : Bool
  shutdownDone : Bool
  saveChannelLen : Nat
  finalSaves : Nat
  deriving DecidableEq, Repr

/-- triggerSave: return immediately when closed; otherwise perform a
non-blocking send on saveChannel, dropping the signal when the buffer is
full. -/
def PersistentStore.triggerSave (ps : PersistentStore) : PersistentStore :=
  if ps.closed then ps
  else if ps.saveChannelLen < saveChannelCapacity then
    { ps with saveChannelLen := ps.saveChannelLen + 1 }
  else ps

/-- createSnapshot: list all entries of the underlying store, keep only
each entry's data string, tag with format version "1.0", the current
Unix time, and a stats block holding the key count. -/
def PersistentStore.createSnapshot (ms : MemoryStore) (now : Int) : StoreSnapshot :=
  { data := some (ms.data.map fun p => (p.1, p.2.data))
    stats := ⟨(ms.data.map fun p => (p.1, p.2.data)).length, 0, 0, 0, 0⟩
    version := "1.0"
    timestamp := now }

/-- PersistentStore.Get: StoreClosed when this wrapper is closed,
otherwise forward to the underlying store. -/
def PersistentStore.get (ps : PersistentStore) (ctxDone : Bool) (key : String) :
    PersistentStore × Value × Option Err :=
  if ps.closed then (ps, Value.zero, some Err.storeClosed)
  else
    let r := ps.store.get ctxDone key
    ({ ps with store := r.1 }, r.2.1, r.2.2)

/-- PersistentStore.Set: StoreClosed when closed; otherwise forward to
the underlying store, return its error unchanged, and on success
trigger an asynchronous save when autoSave is enabled. -/
def PersistentStore.set (ps : PersistentStore) (ctxDone : Bool) (now : Nat)
    (key value : String) : PersistentStore × Option Err :=
  if ps.closed then (ps, some Err.storeClosed)
  else
    let r := ps.store.set ctxDone now key value
    let ps1 := { ps with store := r.1 }
    match r.2 with
    | some e => (ps1, some e)
    | none => (if ps1.autoSave then ps1.triggerSave else ps1, none)

/-- PersistentStore.Delete: StoreClosed when closed; otherwise forward,
return the underlying result unchanged, and trigger a save on success
when autoSave is enabled. -/
def PersistentStore.delete (ps : PersistentStore) (ctxDone : Bool) (key : String) :
    PersistentStore × Value × Option Err :=
  if ps.closed then (ps, Value.zero, some Err.storeClosed)
  else
    let r := ps.store.delete ctxDone key
    let ps1 := { ps with store := r.1 }
    match r.2.2 with
    | some e => (ps1, r.2.1, some e)
    | none => (if ps1.autoSave then ps1.triggerSave else ps1, r.2.1, none)

/-- PersistentStore.List: StoreClosed when closed, otherwise forward. -/
def PersistentStore.list (ps : PersistentStore) (ctxDone : Bool) :
    PersistentStore × Option (List String) × Option Err :=
  if ps.closed then (ps, none, some Err.storeClosed)
  else
    let r := ps.store.list ctxDone
    ({ ps with store := r.1 }, r.2.1, r.2.2)

/-- PersistentStore.ListEntries: StoreClosed when closed, otherwise
forward. -/
def PersistentStore.listEntries (ps : PersistentStore) (ctxDone : Bool) :
    PersistentStore × Option KVMap × Option Err :=
  if ps.closed then (ps, none, some Err.storeClosed)
  else
    let r := ps.store.listEntries ctxDone
    ({ ps with store := r.1 }, r.2.1, r.2.2)

/-- PersistentStore.Size: StoreClosed when closed, otherwise forward. -/
def PersistentStore.size (ps : PersistentStore) (ctxDone : Bool) :
    PersistentStore × Nat × Option Err :=
  if ps.closed then (ps, 0, some Err.storeClosed)
  else
    let r := ps.store.size ctxDone
    ({ ps with store := r.1 }, r.2.1, r.2.2)

/-- PersistentStore.Clear: StoreClosed when closed; otherwise forward
and trigger a save on success when autoSave is enabled. -/
def PersistentStore.clear (ps : PersistentStore) (ctxDone : Bool) :
    PersistentStore × Option Err :=
  if ps.closed then (ps, some Err.storeClosed)
  else
    let r := ps.store.clear ctxDone
    let ps1 := { ps with store := r.1 }
    match r.2 with
    | some e => (ps1, some e)
    | none => (if ps1.autoSave then ps1.triggerSave else ps1, none)

/-- PersistentStore.Exists: StoreClosed when closed, otherwise forward. -/
def PersistentStore.existsKey (ps : PersistentStore) (ctxDone : Bool) (key : String) :
    PersistentStore × Bool × Option Err :=
  if ps.closed then (ps, false, some Err.storeClosed)
  else
    let r := ps.store.existsKey ctxDone key
    ({ ps with store := r.1 }, r.2.1, r.2.2)

/-- PersistentStore.CompareAndSwap: StoreClosed when closed; otherwise
forward, return the underlying result unchanged, and trigger a save on
success when autoSave is enabled. -/
def PersistentStore.compareAndSwap (ps : PersistentStore) (ctxDone : Bool)
    (now : Nat) (key : String) (expectedVersion : Int) (newValue : String) :
    PersistentStore × Value × Option Err :=
  if ps.closed then (ps, Value.zero, some Err.storeClosed)
  else
    let r := ps.store.compareAndSwap ctxDone now key expectedVersion newValue
    let ps1 := { ps with store := r.1 }
    match r.2.2 with
    | some e => (ps1, r.2.1, some e)
    | none => (if ps1.autoSave then ps1.triggerSave else ps1, r.2.1, none)

/-- PersistentStore.Close. sync.Once makes the second call a no-op that
returns nil. The first call marks the wrapper closed (stopping the
periodic timer), performs the final save with retry when saveOnShutdown
is set, closes the save channel (the worker sees closed=true and drains
the remaining buffered signals without saving), then closes the
underlying store. saveWithRetry is deterministic in the fault-free
filesystem model, so its bounded retries collapse to one attempt. -/
def PersistentStore.close (ps : PersistentStore) (now : Int) :
    PersistentStore × Option SaveErr :=
  if ps.shutdownDone then (ps, none)
  else
    let ps1 := { ps with closed := true, shutdownDone := true }
    let afterSave :=
      if ps1.saveOnShutdown then
        let snap := PersistentStore.createSnapshot ps1.store now
        let r := JSONFilePersistence.save ps1.file (some snap)
        ({ ps1 with
            file := r.1
            finalSaves := ps1.finalSaves + (if r.2.isNone then 1 else 0) },
         r.2)
      else (ps1, none)
    let ps2 := afterSave.1
    let ps3 := { ps2 with saveChannelLen := 0, store := ps2.store.close.1 }
    (ps3, afterSave.2)

/-! ## Operation traces over a monotonic clock -/

/-- One caller-visible MemoryStore operation together with the context
bit it was invoked under. -/
inductive Op where
  | opGet (c : Bool) (k : String)
  | opSet (c : Bool) (k v : String)
  | opDelete (c : Bool) (k : String)
  | opList (c : Bool)
  | opListEntries (c : Bool)
  | opSize (c : Bool)
  | opClear (c : Bool)
  | opExists (c : Bool) (k : String)
  | opCas (c : Bool) (k : String) (expectedVersion : Int) (nv : String)
  | opClose
  deriving DecidableEq, Repr

/-- The state left behind by one operation executed at clock value
`now`. -/
def applyOp (ms : MemoryStore) (now : Nat) : Op → MemoryStore
  | Op.opGet c k => (ms.get c k).1
  | Op.opSet c k v => (ms.set c now k v).1
  | Op.opDelete c k => (ms.delete c k).1
  | Op.opList c => (ms.list c).1
  | Op.opListEntries c => (ms.listEntries c).1
  | Op.opSize c => (ms.size c).1
  | Op.opClear c => (ms.clear c).1
  | Op.opExists c k => (ms.existsKey c k).1
  | Op.opCas c k e nv => (ms.compareAndSwap c now k e nv).1
  | Op.opClose => ms.close.1

/-- States reachable from a fresh NewMemoryStore by any sequence of
operations executed at nondecreasing clock values; the second component
is the clock value of the latest step (time.Now never runs backwards
within one process). -/
inductive ReachableAt : MemoryStore → Nat → Prop where
  | init : ReachableAt newMemoryStore 0
  | step {ms : MemoryStore} {t now : Nat} (op : Op) :
      ReachableAt ms t → t ≤ now → ReachableAt (applyOp ms now op) now

/-- The per-value metadata invariant at clock value `t`. -/
def ValueOK (t : Nat) (v : Value) : Prop :=
  v.createdAt ≤ v.updatedAt ∧ v.updatedAt ≤ t ∧ 1 ≤ v.version

/-- Every value stored in the map satisfies the metadata invariant. -/
def StoreOK (ms : MemoryStore) (t : Nat) : Prop :=
  ∀ p ∈ ms.data, ValueOK t p.2

/-! ## Concrete states used to exercise the theorems -/

/-- A value as created by a first Set at time 1. -/
def sampleValue : Value := ⟨"v1", 1, 1, 1⟩

/-- An open store holding one key "k". -/
def sampleStore : MemoryStore := ⟨[("k", sampleValue)], ⟨1, 1, 0, 1, 0⟩, false⟩

/-- The same store after Close. -/
def closedStore : MemoryStore := { sampleStore with closed := true }

/-- An open durable store over `sampleStore` with one pending save
signal. -/
def samplePS : PersistentStore :=
  { store := sampleStore
    file := none
    autoSave := true
    saveOnShutdown := true
    closed := false
    shutdownDone := false
    saveChannelLen := 1
    finalSaves := 0 }

/-- A durable store that has been closed (its underlying store closed
with it). -/
def closedPS : PersistentStore :=
  { samplePS with store := closedStore, closed := true, shutdownDone := true }

/-- A snapshot as accepted by Save. -/
def sampleSnapshot : StoreSnapshot :=
  ⟨some [("a", "1"), ("b", "2")], ⟨2, 0, 0, 0, 0⟩, "1.0", 42⟩

/-- A structurally invalid snapshot (nil data map), as could be
deserialized from a hand-edited file. -/
def corruptSnapshot : StoreSnapshot :=
  ⟨none, ⟨0, 0, 0, 0, 0⟩, "1.0", 42⟩

/-- A durable store whose save channel is at capacity. -/
def fullPS : PersistentStore :=
  { samplePS with saveChannelLen := saveChannelCapacity }

/-! ## Map lemmas -/

theorem lookupKV_insertKV (m : KVMap) (k k' : String) (v : Value) :
    lookupKV (insertKV m k v) k' = if k = k' then some v else lookupKV m k' := by
  induction m with
  | nil => simp [insertKV, lookupKV]
  | cons p rest ih =>
    obtain ⟨a, w⟩ := p
    by_cases hak : a = k
    · subst hak
      simp only [insertKV, if_pos rfl, lookupKV]
      by_cases hk' : a = k'
      · simp [hk']
      · simp [hk']
    · simp only [insertKV, if_neg hak, lookupKV, ih]
      by_cases hkk : k = k'
      · subst hkk
        simp [hak]
      · simp [hkk]

theorem mem_insertKV {p : String × Value} {m : KVMap} {k : String} {v : Value}
    (h : p ∈ insertKV m k v) : p = (k, v) ∨ p ∈ m := by
  induction m with
  | nil =>
    simp only [insertKV, List.mem_singleton] at h
    exact Or.inl h
  | cons q rest ih =>
    obtain ⟨a, w⟩ := q
    by_cases hak : a = k
    · subst hak
      simp only [insertKV, if_pos rfl] at h
      rcases List.mem_cons.mp h with h1 | h1
      · exact Or.inl h1
      · exact Or.inr (List.mem_cons_of_mem _ h1)
    · simp only [insertKV, if_neg hak, List.mem_cons] at h
      rcases h with h1 | h1
      · exact Or.inr (by simp [h1])
      · rcases ih h1 with h2 | h2
        · exact Or.inl h2
        · exact Or.inr (List.mem_cons_of_mem _ h2)

theorem mem_eraseKV {p : String × Value} {m : KVMap} {k : String}
    (h : p ∈ eraseKV m k) : p ∈ m := by
  induction m with
  | nil => simp [eraseKV] at h
  | cons q rest ih =>
    obtain ⟨a, w⟩ := q
    by_cases hak : a = k
    · subst hak
      simp only [eraseKV, if_pos rfl] at h
      exact List.mem_cons_of_mem _ h
    · simp only [eraseKV, if_neg hak, List.mem_cons] at h
      rcases h with h1 | h1
      · simp [h1]
      · exact List.mem_cons_of_mem _ (ih h1)

theorem lookupKV_mem {m : KVMap} {k : String} {v : Value}
    (h : lookupKV m k = some v) : (k, v) ∈ m := by
  induction m with
  | nil => simp [lookupKV] at h
  | cons q rest ih =>
    obtain ⟨a, w⟩ := q
    by_cases hak : a = k
    · subst hak
      simp [lookupKV] at h
      simp [h]
    · simp only [lookupKV, if_neg hak] at h
      exact List.mem_cons_of_mem _ (ih h)

/-! ## Projection lemmas for the stats-only helpers -/

@[simp] theorem incrementStat_data (ms : MemoryStore) (t : StatType) :
    (ms.incrementStat t).data = ms.data := rfl

@[simp] theorem incrementStat_closed (ms : MemoryStore) (t : StatType) :
    (ms.incrementStat t).closed = ms.closed := rfl

@[simp] theorem updateKeyCount_data (ms : MemoryStore) :
    ms.updateKeyCount.data = ms.data := rfl

@[simp] theorem updateKeyCount_closed (ms : MemoryStore) :
    ms.updateKeyCount.closed = ms.closed := rfl

/-! ## Data-map effect of each operation -/

theorem get_data (ms : MemoryStore) (c : Bool) (k : String) :
    ((ms.get c k).1).data = ms.data := by
  unfold MemoryStore.get
  split
  · rfl
  · split
    · rfl
    · split
      · rfl
      · cases hl : lookupKV ms.data k <;> simp [hl]

theorem existsKey_data (ms : MemoryStore) (c : Bool) (k : String) :
    ((ms.existsKey c k).1).data = ms.data := by
  unfold MemoryStore.existsKey
  split
  · rfl
  · split
    · rfl
    · split <;> rfl

theorem list_data (ms : MemoryStore) (c : Bool) :
    ((ms.list c).1).data = ms.data := by
  unfold MemoryStore.list
  split
  · rfl
  · split <;> rfl

theorem listEntries_data (ms : MemoryStore) (c : Bool) :
    ((ms.listEntries c).1).data = ms.data := by
  unfold MemoryStore.listEntries
  split
  · rfl
  · split <;> rfl

theorem size_data (ms : MemoryStore) (c : Bool) :
    ((ms.size c).1).data = ms.data := by
  unfold MemoryStore.size
  split
  · rfl
  · split <;> rfl

theorem close_data (ms : MemoryStore) : (ms.close.1).data = ms.data := rfl

/-! ## Preservation of the metadata invariant -/

theorem storeOK_mono {ms : MemoryStore} {t t' : Nat}
    (h : StoreOK ms t) (ht : t ≤ t') : StoreOK ms t' := by
  intro p hp
  obtain ⟨h1, h2, h3⟩ := h p hp
  exact ⟨h1, le_trans h2 ht, h3⟩

theorem storeOK_of_data_eq {ms ms' : MemoryStore} {t : Nat}
    (hdata : ms'.data = ms.data) (h : StoreOK ms t) : StoreOK ms' t := by
  intro p hp
  exact h p (hdata ▸ hp)

theorem storeOK_set {ms : MemoryStore} {t now : Nat} {c : Bool} {k v : String}
    (h : StoreOK ms t) (ht : t ≤ now) : StoreOK ((ms.set c now k v).1) now := by
  have hmono := storeOK_mono h ht
  unfold MemoryStore.set
  split
  · exact hmono
  · split
    · exact hmono
    · split
      · exact hmono
      · intro p hp
        simp only [MemoryStore.updateKeyCount, incrementStat_data] at hp
        rcases mem_insertKV hp with h1 | h1
        · subst h1
          cases hl : lookupKV ms.data k with
          | some ex =>
            obtain ⟨e1, e2, e3⟩ := h _ (lookupKV_mem hl)
            simp only [incrementStat_data, hl]
            exact ⟨le_trans e1 (le_trans e2 ht), le_refl now, by
              have e4 : (1 : Int) ≤ ex.version := e3
              show (1 : Int) ≤ ex.version + 1
              omega⟩
          | none =>
            simp only [incrementStat_data, hl]
            exact ⟨le_refl now, le_refl now, by show (1 : Int) ≤ 1; omega⟩
        · exact storeOK_mono h ht p h1

theorem storeOK_delete {ms : MemoryStore} {t now : Nat} {c : Bool} {k : String}
    (h : StoreOK ms t) (ht : t ≤ now) : StoreOK ((ms.delete c k).1) now := by
  have hmono := storeOK_mono h ht
  unfold MemoryStore.delete
  split
  · exact hmono
  · split
    · exact hmono
    · split
      · exact hmono
      · cases hl : lookupKV ms.data k with
        | none =>
          intro p hp
          simp only [incrementStat_data, hl] at hp
          exact hmono p hp
        | some v =>
          intro p hp
          simp only [MemoryStore.updateKeyCount, incrementStat_data, hl] at hp
          exact hmono p (mem_eraseKV hp)

theorem storeOK_clear {ms : MemoryStore} {t now : Nat} {c : Bool}
    (h : StoreOK ms t) (ht : t ≤ now) : StoreOK ((ms.clear c).1) now := by
  have hmono := storeOK_mono h ht
  unfold MemoryStore.clear
  split
  · exact hmono
  · split
    · exact hmono
    · intro p hp
      simp [MemoryStore.updateKeyCount] at hp

theorem storeOK_compareAndSwap {ms : MemoryStore} {t now : Nat} {c : Bool}
    {k nv : String} {e : Int}
    (h : StoreOK ms t) (ht : t ≤ now) :
    StoreOK ((ms.compareAndSwap c now k e nv).1) now := by
  have hmono := storeOK_mono h ht
  unfold MemoryStore.compareAndSwap
  split
  · exact hmono
  · split
    · exact hmono
    · split
      · exact hmono
      · split
        · exact hmono
        · rename_i currentValue hl
          split
          · exact hmono
          · intro p hp
            simp only [] at hp
            rcases mem_insertKV hp with h1 | h1
            · subst h1
              obtain ⟨e1, e2, e3⟩ := h _ (lookupKV_mem hl)
              exact ⟨le_trans e1 (le_trans e2 ht), le_refl now, by
                have e4 : (1 : Int) ≤ currentValue.version := e3
                show (1 : Int) ≤ currentValue.version + 1
                omega⟩
            · exact hmono p h1

theorem storeOK_applyOp {ms : MemoryStore} {t now : Nat} (op : Op)
    (h : StoreOK ms t) (ht : t ≤ now) : StoreOK (applyOp ms now op) now := by
  have hmono := storeOK_mono h ht
  cases op with
  | opGet c k => exact storeOK_of_data_eq (get_data ms c k) hmono
  | opSet c k v => exact storeOK_set h ht
  | opDelete c k => exact storeOK_delete h ht
  | opList c => exact storeOK_of_data_eq (list_data ms c) hmono
  | opListEntries c => exact storeOK_of_data_eq (listEntries_data ms c) hmono
  | opSize c => exact storeOK_of_data_eq (size_data ms c) hmono
  | opClear c => exact storeOK_clear h ht
  | opExists c k => exact storeOK_of_data_eq (existsKey_data ms c k) hmono
  | opCas c k e nv => exact storeOK_compareAndSwap h ht
  | opClose => exact storeOK_of_data_eq (close_data ms) hmono

theorem reachable_storeOK {ms : MemoryStore} {t : Nat}
    (h : ReachableAt ms t) : StoreOK ms t := by
  induction h with
  | init => intro p hp; simp [newMemoryStore] at hp
  | step op hr ht ih => exact storeOK_applyOp op ih ht

/-- Every key that is empty, longer than 255 bytes, or containing a null
byte fails Key.Validate with ErrInvalidKey. -/
theorem keyValidate_invalid {k : String}
    (h : k.utf8ByteSize = 0 ∨ 255 < k.utf8ByteSize ∨ ∃ c ∈ k.data, c.toNat = 0) :
    keyValidate k = some Err.invalidKey := by
  unfold keyValidate
  rcases h with h | h | h
  · simp [h]
  · have h0 : ¬ k.utf8ByteSize = 0 := by omega
    simp [h0, h]
  · by_cases h0 : k.utf8ByteSize = 0
    · simp [h0]
    · by_cases h1 : 255 < k.utf8ByteSize
      · simp [h0, h1]
      · have h2 : k.data.any (fun c => decide (c.toNat = 0)) = true := by
          rw [List.any_eq_true]
          obtain ⟨c, hc, hc0⟩ := h
          exact ⟨c, hc, by simp [hc0]⟩
        simp [h0, h1, h2]

/-! ## Claim theorems -/

/-- C1: CompareAndSwap succeeds and increments the version exactly when
the stored version for the key equals expectedVersion; when the versions
differ it returns the current stored value together with
ConcurrentModification and the whole store state is left untouched; when
the key is absent it returns KeyNotFound (and leaves the state
untouched as well). -/
theorem compareAndSwap_semantics :
    (∀ (ms : MemoryStore) (now : Nat) (k nv : String) (exp : Int) (cur : Value),
       keyValidate k = none → ms.closed = false →
       lookupKV ms.data k = some cur → cur.version = exp →
       ms.compareAndSwap false now k exp nv =
         ({ ms with data := insertKV ms.data k ⟨nv, cur.createdAt, now, exp + 1⟩ },
          (⟨nv, cur.createdAt, now, exp + 1⟩ : Value), none))
    ∧ (∀ (ms : MemoryStore) (now : Nat) (k nv : String) (exp : Int) (cur : Value),
       keyValidate k = none → ms.closed = false →
       lookupKV ms.data k = some cur → cur.version ≠ exp →
       ms.compareAndSwap false now k exp nv =
         (ms, cur, some Err.concurrentModification))
    ∧ (∀ (ms : MemoryStore) (now : Nat) (k nv : String) (exp : Int),
       keyValidate k = none → ms.closed = false →
       lookupKV ms.data k = none →
       ms.compareAndSwap false now k exp nv =
         (ms, Value.zero, some Err.keyNotFound)) := by
  refine ⟨?_, ?_, ?_⟩
  · intro ms now k nv exp cur hv hc hl hver
    subst hver
    simp [MemoryStore.compareAndSwap, hv, hc, hl]
  · intro ms now k nv exp cur hv hc hl hver
    simp [MemoryStore.compareAndSwap, hv, hc, hl, hver]
  · intro ms now k nv exp hv hc hl
    simp [MemoryStore.compareAndSwap, hv, hc, hl]

/-- Witness for C1: the three branches of CompareAndSwap exercised on a
concrete one-entry store. -/
theorem compareAndSwap_semantics_witness :
    sampleStore.compareAndSwap false 5 "k" 1 "v3" =
      ({ sampleStore with
          data := insertKV sampleStore.data "k" ⟨"v3", 1, 5, 2⟩ },
       (⟨"v3", 1, 5, 2⟩ : Value), none)
    ∧ sampleStore.compareAndSwap false 5 "k" 7 "v3" =
      (sampleStore, sampleValue, some Err.concurrentModification)
    ∧ sampleStore.compareAndSwap false 5 "missing" 1 "v3" =
      (sampleStore, Value.zero, some Err.keyNotFound) := by
  refine ⟨?_, ?_, ?_⟩
  · exact compareAndSwap_semantics.1 sampleStore 5 "k" "v3" 1 sampleValue
      rfl rfl rfl rfl
  · exact compareAndSwap_semantics.2.1 sampleStore 5 "k" "v3" 7 sampleValue
      rfl rfl rfl (by decide)
  · exact compareAndSwap_semantics.2.2 sampleStore 5 "missing" "v3" 1
      rfl rfl rfl

/-- C9: on success CompareAndSwap returns the updated value, not the
prior one: data equal to the new data, version expectedVersion + 1, the
original createdAt, and a nil error. -/
theorem compareAndSwap_success_result :
    ∀ (ms : MemoryStore) (now : Nat) (k nv : String) (exp : Int) (cur : Value),
      keyValidate k = none → ms.closed = false →
      lookupKV ms.data k = some cur → cur.version = exp →
      (ms.compareAndSwap false now k exp nv).2.1.data = nv
      ∧ (ms.compareAndSwap false now k exp nv).2.1.version = exp + 1
      ∧ (ms.compareAndSwap false now k exp nv).2.1.createdAt = cur.createdAt
      ∧ (ms.compareAndSwap false now k exp nv).2.2 = none := by
  intro ms now k nv exp cur hv hc hl hver
  subst hver
  simp [MemoryStore.compareAndSwap, hv, hc, hl]

/-- Witness for C9 on the concrete one-entry store. -/
theorem compareAndSwap_success_result_witness :
    (sampleStore.compareAndSwap false 5 "k" 1 "v3").2.1.data = "v3"
    ∧ (sampleStore.compareAndSwap false 5 "k" 1 "v3").2.1.version = 1 + 1
    ∧ (sampleStore.compareAndSwap false 5 "k" 1 "v3").2.1.createdAt
        = sampleValue.createdAt
    ∧ (sampleStore.compareAndSwap false 5 "k" 1 "v3").2.2 = none :=
  compareAndSwap_success_result sampleStore 5 "k" "v3" 1 sampleValue
    rfl rfl rfl rfl

/-- C2: a successful Set stores version 1 at first insertion; a
successful Set or CompareAndSwap on a present key stores exactly the old
version plus 1; and on a fresh key, Set v1 then Set v2 yields a Get with
data v2 and version 2. -/
theorem set_version_semantics :
    (∀ (ms : MemoryStore) (now : Nat) (k v : String),
       keyValidate k = none → ms.closed = false →
       lookupKV ms.data k = none →
       lookupKV ((ms.set false now k v).1).data k = some ⟨v, now, now, 1⟩
       ∧ (ms.set false now k v).2 = none)
    ∧ (∀ (ms : MemoryStore) (now : Nat) (k v : String) (ex : Value),
       keyValidate k = none → ms.closed = false →
       lookupKV ms.data k = some ex →
       lookupKV ((ms.set false now k v).1).data k
         = some ⟨v, ex.createdAt, now, ex.version + 1⟩
       ∧ (ms.set false now k v).2 = none)
    ∧ (∀ (ms : MemoryStore) (now : Nat) (k nv : String) (exp : Int) (cur : Value),
       keyValidate k = none → ms.closed = false →
       lookupKV ms.data k = some cur → cur.version = exp →
       lookupKV ((ms.compareAndSwap false now k exp nv).1).data k
         = some ⟨nv, cur.createdAt, now, cur.version + 1⟩)
    ∧ ((((newMemoryStore.set false 1 "k" "v1").1.set false 2 "k" "v2").1.get
          false "k").2.1 = (⟨"v2", 1, 2, 2⟩ : Value)) := by
  refine ⟨?_, ?_, ?_, by decide⟩
  · intro ms now k v hv hc hl
    constructor
    · simp [MemoryStore.set, hv, hc, hl, lookupKV_insertKV]
    · simp [MemoryStore.set, hv, hc]
  · intro ms now k v ex hv hc hl
    constructor
    · simp [MemoryStore.set, hv, hc, hl, lookupKV_insertKV]
    · simp [MemoryStore.set, hv, hc]
  · intro ms now k nv exp cur hv hc hl hver
    subst hver
    simp [MemoryStore.compareAndSwap, hv, hc, hl, lookupKV_insertKV]

/-- Witness for C2 on concrete stores. -/
theorem set_version_semantics_witness :
    (lookupKV ((newMemoryStore.set false 3 "k" "v1").1).data "k"
       = some ⟨"v1", 3, 3, 1⟩
     ∧ (newMemoryStore.set false 3 "k" "v1").2 = none)
    ∧ (lookupKV ((sampleStore.set false 5 "k" "v2").1).data "k"
         = some ⟨"v2", 1, 5, 2⟩
       ∧ (sampleStore.set false 5 "k" "v2").2 = none)
    ∧ lookupKV ((sampleStore.compareAndSwap false 5 "k" 1 "v3").1).data "k"
        = some ⟨"v3", 1, 5, 2⟩ := by
  refine ⟨?_, ?_, ?_⟩
  · exact set_version_semantics.1 newMemoryStore 3 "k" "v1" rfl rfl rfl
  · exact set_version_semantics.2.1 sampleStore 5 "k" "v2" sampleValue
      rfl rfl rfl
  · exact set_version_semantics.2.2.1 sampleStore 5 "k" "v3" 1 sampleValue
      rfl rfl rfl rfl

/-- C10: for every invalid key (empty, longer than 255 bytes, or
containing a null byte), Get, Set, Delete, Exists and CompareAndSwap on
any MemoryStore, closed or not (and under any context), return
InvalidKey, never StoreClosed. -/
theorem invalid_key_precedence :
    ∀ (ms : MemoryStore) (c : Bool) (now : Nat) (k d nv : String) (exp : Int),
      (k.utf8ByteSize = 0 ∨ 255 < k.utf8ByteSize ∨ ∃ ch ∈ k.data, ch.toNat = 0) →
      (ms.get c k).2.2 = some Err.invalidKey
      ∧ (ms.set c now k d).2 = some Err.invalidKey
      ∧ (ms.delete c k).2.2 = some Err.invalidKey
      ∧ (ms.existsKey c k).2.2 = some Err.invalidKey
      ∧ (ms.compareAndSwap c now k exp nv).2.2 = some Err.invalidKey
      ∧ Err.invalidKey ≠ Err.storeClosed := by
  intro ms c now k d nv exp h
  have hv := keyValidate_invalid h
  refine ⟨?_, ?_, ?_, ?_, ?_, by decide⟩
  · simp [MemoryStore.get, hv]
  · simp [MemoryStore.set, hv]
  · simp [MemoryStore.delete, hv]
  · simp [MemoryStore.existsKey, hv]
  · simp [MemoryStore.compareAndSwap, hv]

/-- Witness for C10: the empty key on a closed store. -/
theorem invalid_key_precedence_witness :
    (closedStore.get false "").2.2 = some Err.invalidKey
    ∧ (closedStore.set false 9 "" "d").2 = some Err.invalidKey
    ∧ (closedStore.delete false "").2.2 = some Err.invalidKey
    ∧ (closedStore.existsKey false "").2.2 = some Err.invalidKey
    ∧ (closedStore.compareAndSwap false 9 "" 1 "nv").2.2 = some Err.invalidKey
    ∧ Err.invalidKey ≠ Err.storeClosed :=
  invalid_key_precedence closedStore false 9 "" "d" "nv" 1 (Or.inl rfl)

/-- C8: in every reachable store state every stored value satisfies
updatedAt ≥ createdAt and version ≥ 1; moreover a successful mutation of
a present key (Set or CompareAndSwap) keeps the key's original createdAt
and refreshes updatedAt to the mutation time. -/
theorem value_metadata_invariant :
    (∀ (ms : MemoryStore) (t : Nat), ReachableAt ms t →
       ∀ (k : String) (v : Value), lookupKV ms.data k = some v →
         v.createdAt ≤ v.updatedAt ∧ 1 ≤ v.version)
    ∧ (∀ (ms : MemoryStore) (now : Nat) (k d : String) (ex : Value),
        keyValidate k = none → ms.closed = false →
        lookupKV ms.data k = some ex →
        lookupKV ((ms.set false now k d).1).data k
          = some ⟨d, ex.createdAt, now, ex.version + 1⟩)
    ∧ (∀ (ms : MemoryStore) (now : Nat) (k nv : String) (exp : Int) (ex : Value),
        keyValidate k = none → ms.closed = false →
        lookupKV ms.data k = some ex → ex.version = exp →
        lookupKV ((ms.compareAndSwap false now k exp nv).1).data k
          = some ⟨nv, ex.createdAt, now, exp + 1⟩) := by
  refine ⟨?_, ?_, ?_⟩
  · intro ms t hr k v hl
    obtain ⟨h1, _, h3⟩ := reachable_storeOK hr _ (lookupKV_mem hl)
    exact ⟨h1, h3⟩
  · intro ms now k d ex hv hc hl
    simp [MemoryStore.set, hv, hc, hl, lookupKV_insertKV]
  · intro ms now k nv exp ex hv hc hl hver
    subst hver
    simp [MemoryStore.compareAndSwap, hv, hc, hl, lookupKV_insertKV]

/-- Witness for C8: a state reached by one Set at time 1, then concrete
mutations at time 5. -/
theorem value_metadata_invariant_witness :
    ((⟨"v1", 1, 1, 1⟩ : Value).createdAt ≤ (⟨"v1", 1, 1, 1⟩ : Value).updatedAt
      ∧ 1 ≤ (⟨"v1", 1, 1, 1⟩ : Value).version)
    ∧ lookupKV ((sampleStore.set false 5 "k" "nd").1).data "k"
        = some ⟨"nd", sampleValue.createdAt, 5, sampleValue.version + 1⟩
    ∧ lookupKV ((sampleStore.compareAndSwap false 5 "k" 1 "nv").1).data "k"
        = some ⟨"nv", sampleValue.createdAt, 5, 1 + 1⟩ := by
  refine ⟨?_, ?_, ?_⟩
  · exact value_metadata_invariant.1 _ 1
      (ReachableAt.step (Op.opSet false "k" "v1") ReachableAt.init (by omega))
      "k" ⟨"v1", 1, 1, 1⟩ (by decide)
  · exact value_metadata_invariant.2.1 sampleStore 5 "k" "nd" sampleValue
      rfl rfl rfl
  · exact value_metadata_invariant.2.2 sampleStore 5 "k" "nv" 1 sampleValue
      rfl rfl rfl rfl

/-- C3: for every snapshot accepted by Save (structural validation
passes: data present, version tag non-empty, positive timestamp), Save
followed by Load on the same persistence path returns exactly the saved
snapshot — identical data map, version string and timestamp. -/
theorem save_load_roundtrip :
    ∀ (fs : FileState) (s : StoreSnapshot), validateSnapshot s = none →
      JSONFilePersistence.load (JSONFilePersistence.save fs (some s)).1
        = (some s, none) := by
  intro fs s hv
  simp [JSONFilePersistence.save, JSONFilePersistence.load, hv]

/-- Witness for C3: round trip of a two-key snapshot starting from an
absent file. -/
theorem save_load_roundtrip_witness :
    JSONFilePersistence.load
        (JSONFilePersistence.save none (some sampleSnapshot)).1
      = (some sampleSnapshot, none) :=
  save_load_roundtrip none sampleSnapshot rfl

/-- C6 counterexample: on file content that fails deserialization, Load
returns the wrapped unmarshal error, which is a different error value
from SnapshotCorrupted; the claim that deserialization failure yields
SnapshotCorrupted is therefore false. -/
theorem load_unmarshal_error_counterexample :
    JSONFilePersistence.load (some FileContent.garbage)
      = (none, some LoadErr.unmarshalFailed)
    ∧ LoadErr.unmarshalFailed ≠ LoadErr.snapshotCorrupted :=
  ⟨rfl, by decide⟩

/-- C6 amended: Load returns NoSnapshotFound when the file is absent,
rejects empty content with a plain error, returns a wrapped
deserialization error (not SnapshotCorrupted) when unmarshalling fails,
and returns SnapshotCorrupted exactly when structural validation of the
deserialized snapshot fails. -/
theorem load_error_taxonomy :
    JSONFilePersistence.load none = (none, some LoadErr.noSnapshotFound)
    ∧ JSONFilePersistence.load (some FileContent.emptyFile)
        = (none, some LoadErr.emptyFile)
    ∧ JSONFilePersistence.load (some FileContent.garbage)
        = (none, some LoadErr.unmarshalFailed)
    ∧ (∀ (s : StoreSnapshot) (e : SnapValErr), validateSnapshot s = some e →
        JSONFilePersistence.load (some (FileContent.jsonOf s))
          = (none, some LoadErr.snapshotCorrupted)) := by
  refine ⟨rfl, rfl, rfl, ?_⟩
  intro s e hv
  simp [JSONFilePersistence.load, hv]

/-- Witness for C6 (amended): a snapshot with a nil data map loads as
SnapshotCorrupted. -/
theorem load_error_taxonomy_witness :
    JSONFilePersistence.load (some (FileContent.jsonOf corruptSnapshot))
      = (none, some LoadErr.snapshotCorrupted) :=
  load_error_taxonomy.2.2.2 corruptSnapshot SnapValErr.dataNil rfl

/-- triggerSave never touches the wrapped store. -/
theorem triggerSave_store (ps : PersistentStore) :
    ps.triggerSave.store = ps.store := by
  unfold PersistentStore.triggerSave
  split_ifs <;> rfl

/-- C5 counterexample: with exactly one save signal pending (far below
the actual buffer capacity of 100) a new request is queued, not dropped,
so the signal queue does not have capacity 1. -/
theorem saveChannel_capacity_counterexample :
    samplePS.saveChannelLen = 1
    ∧ samplePS.triggerSave.saveChannelLen = 2
    ∧ saveChannelCapacity ≠ 1 :=
  ⟨rfl, by decide, by decide⟩

/-- C5 amended: save-request signals go through a bounded buffer of
capacity 100; emitting a signal never blocks (triggerSave is total and
leaves the queue within its bound); while fewer than 100 signals are
pending a new request is enqueued, and when the buffer is full a new
request is dropped rather than queued, so mutations beyond the buffer
collapse into the already-pending flushes. -/
theorem triggerSave_coalescing :
    saveChannelCapacity = 100
    ∧ (∀ ps : PersistentStore,
        ps.triggerSave.saveChannelLen ≤ max ps.saveChannelLen saveChannelCapacity)
    ∧ (∀ ps : PersistentStore, ps.closed = false →
        ps.saveChannelLen < saveChannelCapacity →
        ps.triggerSave = { ps with saveChannelLen := ps.saveChannelLen + 1 })
    ∧ (∀ ps : PersistentStore, ps.saveChannelLen = saveChannelCapacity →
        ps.triggerSave = ps)
    ∧ (∀ ps : PersistentStore, ps.closed = true → ps.triggerSave = ps) := by
  refine ⟨rfl, ?_, ?_, ?_, ?_⟩
  · intro ps
    unfold PersistentStore.triggerSave
    split_ifs with h1 h2
    · exact le_max_left _ _
    · simp only []
      omega
    · exact le_max_left _ _
  · intro ps hc hlt
    unfold PersistentStore.triggerSave
    rw [if_neg (by simp [hc]), if_pos hlt]
  · intro ps hfull
    unfold PersistentStore.triggerSave
    split_ifs with h1 h2
    · rfl
    · omega
    · rfl
  · intro ps hc
    unfold PersistentStore.triggerSave
    rw [if_pos (by simp [hc])]

/-- Witness for C5 (amended): enqueue below capacity, drop at capacity,
no-op after close. -/
theorem triggerSave_coalescing_witness :
    samplePS.triggerSave = { samplePS with saveChannelLen := samplePS.saveChannelLen + 1 }
    ∧ fullPS.triggerSave = fullPS
    ∧ closedPS.triggerSave = closedPS :=
  ⟨triggerSave_coalescing.2.2.1 samplePS rfl (by decide),
   triggerSave_coalescing.2.2.2.1 fullPS rfl,
   triggerSave_coalescing.2.2.2.2 closedPS rfl⟩

/-- C4 counterexample: after Close the DurableStore answers StoreClosed
for an invalid key, while the underlying ValueStore answers InvalidKey,
so the two stores do not behave identically for every operation. -/
theorem closed_invalid_key_divergence :
    (closedPS.get false "").2.2 = some Err.storeClosed
    ∧ (closedPS.store.get false "").2.2 = some Err.invalidKey
    ∧ (some Err.storeClosed : Option Err) ≠ some Err.invalidKey :=
  ⟨rfl, by decide, by decide⟩

/-- C4 amended: while the DurableStore is open, every mutating method
(Set, Delete, Clear, CompareAndSwap) executes synchronously against the
underlying ValueStore and returns that result unchanged — independent of
the persistence state — and every read operation of the Store contract
returns exactly what the underlying ValueStore returns; once closed, the
DurableStore answers StoreClosed for every operation, which for invalid
keys differs from the ValueStore's InvalidKey precedence. -/
theorem persistentStore_forwarding :
    ∀ (ps : PersistentStore) (c : Bool) (now : Nat) (k d nv : String) (exp : Int),
      ps.closed = false →
      ((ps.set c now k d).2 = (ps.store.set c now k d).2
        ∧ (ps.set c now k d).1.store = (ps.store.set c now k d).1)
      ∧ ((ps.delete c k).2 = (ps.store.delete c k).2
        ∧ (ps.delete c k).1.store = (ps.store.delete c k).1)
      ∧ ((ps.clear c).2 = (ps.store.clear c).2
        ∧ (ps.clear c).1.store = (ps.store.clear c).1)
      ∧ ((ps.compareAndSwap c now k exp nv).2
            = (ps.store.compareAndSwap c now k exp nv).2
        ∧ (ps.compareAndSwap c now k exp nv).1.store
            = (ps.store.compareAndSwap c now k exp nv).1)
      ∧ (ps.get c k).2 = (ps.store.get c k).2
      ∧ (ps.list c).2 = (ps.store.list c).2
      ∧ (ps.listEntries c).2 = (ps.store.listEntries c).2
      ∧ (ps.size c).2 = (ps.store.size c).2
      ∧ (ps.existsKey c k).2 = (ps.store.existsKey c k).2 := by
  intro ps c now k d nv exp hc
  refine ⟨⟨?_, ?_⟩, ⟨?_, ?_⟩, ⟨?_, ?_⟩, ⟨?_, ?_⟩, ?_, ?_, ?_, ?_, ?_⟩
  · cases hr : (ps.store.set c now k d).2 with
    | some e => simp [PersistentStore.set, hc, hr]
    | none =>
      by_cases ha : ps.autoSave <;> simp [PersistentStore.set, hc, hr, ha]
  · cases hr : (ps.store.set c now k d).2 with
    | some e => simp [PersistentStore.set, hc, hr]
    | none =>
      by_cases ha : ps.autoSave <;>
        simp [PersistentStore.set, hc, hr, ha, triggerSave_store]
  · cases hr : (ps.store.delete c k).2.2 with
    | some e =>
      simp [PersistentStore.delete, hc, hr]
      rw [← hr]
    | none =>
      by_cases ha : ps.autoSave <;>
        (simp [PersistentStore.delete, hc, hr, ha]; rw [← hr])
  · cases hr : (ps.store.delete c k).2.2 with
    | some e => simp [PersistentStore.delete, hc, hr]
    | none =>
      by_cases ha : ps.autoSave <;>
        simp [PersistentStore.delete, hc, hr, ha, triggerSave_store]
  · cases hr : (ps.store.clear c).2 with
    | some e => simp [PersistentStore.clear, hc, hr]
    | none =>
      by_cases ha : ps.autoSave <;> simp [PersistentStore.clear, hc, hr, ha]
  · cases hr : (ps.store.clear c).2 with
    | some e => simp [PersistentStore.clear, hc, hr]
    | none =>
      by_cases ha : ps.autoSave <;>
        simp [PersistentStore.clear, hc, hr, ha, triggerSave_store]
  · cases hr : (ps.store.compareAndSwap c now k exp nv).2.2 with
    | some e =>
      simp [PersistentStore.compareAndSwap, hc, hr]
      rw [← hr]
    | none =>
      by_cases ha : ps.autoSave <;>
        (simp [PersistentStore.compareAndSwap, hc, hr, ha]; rw [← hr])
  · cases hr : (ps.store.compareAndSwap c now k exp nv).2.2 with
    | some e => simp [PersistentStore.compareAndSwap, hc, hr]
    | none =>
      by_cases ha : ps.autoSave <;>
        simp [PersistentStore.compareAndSwap, hc, hr, ha, triggerSave_store]
  · simp [PersistentStore.get, hc]
  · simp [PersistentStore.list, hc]
  · simp [PersistentStore.listEntries, hc]
  · simp [PersistentStore.size, hc]
  · simp [PersistentStore.existsKey, hc]

/-- Witness for C4 (amended): forwarding exercised at a concrete open
durable store; the Set result and post-state agree with the underlying
store's. -/
theorem persistentStore_forwarding_witness :
    (samplePS.set false 5 "k" "v2").2 = (samplePS.store.set false 5 "k" "v2").2
    ∧ (samplePS.set false 5 "k" "v2").1.store
        = (samplePS.store.set false 5 "k" "v2").1 :=
  (persistentStore_forwarding samplePS false 5 "k" "v2" "nv" 1 rfl).1

/-- After any Close call the sync.Once marker is set. -/
theorem close_shutdownDone (ps : PersistentStore) (now : Int) :
    (ps.close now).1.shutdownDone = true := by
  unfold PersistentStore.close
  split_ifs with h1
  · exact h1
  · by_cases h2 : ps.saveOnShutdown <;> simp [h2]

/-- C7: the shutdown sequence of the DurableStore runs exactly once —
the first Close (at a positive Unix time, with saveOnShutdown set)
completes exactly one final save and returns no error; any later Close
is a no-op returning no error and performing no further save; and once
closed, every Store operation returns StoreClosed. -/
theorem close_idempotent :
    (∀ (ps : PersistentStore) (now : Int), ps.shutdownDone = false →
       ps.saveOnShutdown = true → 0 < now →
       (ps.close now).2 = none
       ∧ (ps.close now).1.finalSaves = ps.finalSaves + 1
       ∧ (ps.close now).1.shutdownDone = true
       ∧ (ps.close now).1.closed = true)
    ∧ (∀ (ps : PersistentStore) (now now2 : Int),
        ((ps.close now).1.close now2) = ((ps.close now).1, none))
    ∧ (∀ (ps : PersistentStore) (c : Bool) (now : Nat) (k d nv : String)
         (exp : Int), ps.closed = true →
        (ps.get c k).2.2 = some Err.storeClosed
        ∧ (ps.set c now k d).2 = some Err.storeClosed
        ∧ (ps.delete c k).2.2 = some Err.storeClosed
        ∧ (ps.list c).2.2 = some Err.storeClosed
        ∧ (ps.listEntries c).2.2 = some Err.storeClosed
        ∧ (ps.size c).2.2 = some Err.storeClosed
        ∧ (ps.clear c).2 = some Err.storeClosed
        ∧ (ps.existsKey c k).2.2 = some Err.storeClosed
        ∧ (ps.compareAndSwap c now k exp nv).2.2 = some Err.storeClosed) := by
  have hdone : ∀ (ps : PersistentStore) (now : Int), ps.shutdownDone = true →
      ps.close now = (ps, none) := by
    intro ps now h
    simp [PersistentStore.close, h]
  refine ⟨?_, ?_, ?_⟩
  · intro ps now hsd hsos hnow
    have hval : validateSnapshot (PersistentStore.createSnapshot ps.store now)
        = none := by
      have h2 : ¬(("1.0" : String) = "") := by decide
      have h3 : ¬(now ≤ 0) := by omega
      simp [validateSnapshot, PersistentStore.createSnapshot, h2, h3]
    refine ⟨?_, ?_, ?_, ?_⟩ <;>
      simp [PersistentStore.close, hsd, hsos, JSONFilePersistence.save, hval]
  · intro ps now now2
    exact hdone _ now2 (close_shutdownDone ps now)
  · intro ps c now k d nv exp hc
    refine ⟨?_, ?_, ?_, ?_, ?_, ?_, ?_, ?_, ?_⟩
    · simp [PersistentStore.get, hc]
    · simp [PersistentStore.set, hc]
    · simp [PersistentStore.delete, hc]
    · simp [PersistentStore.list, hc]
    · simp [PersistentStore.listEntries, hc]
    · simp [PersistentStore.size, hc]
    · simp [PersistentStore.clear, hc]
    · simp [PersistentStore.existsKey, hc]
    · simp [PersistentStore.compareAndSwap, hc]

/-- Witness for C7: closing a concrete open durable store at time 42,
closing it again at time 43, and operating on a closed one. -/
theorem close_idempotent_witness :
    ((samplePS.close 42).2 = none
      ∧ (samplePS.close 42).1.finalSaves = samplePS.finalSaves + 1
      ∧ (samplePS.close 42).1.shutdownDone = true
      ∧ (samplePS.close 42).1.closed = true)
    ∧ ((samplePS.close 42).1.close 43) = ((samplePS.close 42).1, none)
    ∧ (closedPS.get false "k").2.2 = some Err.storeClosed :=
  ⟨close_idempotent.1 samplePS 42 rfl rfl (by omega),
   close_idempotent.2.1 samplePS 42 43,
   (close_idempotent.2.2 closedPS false 0 "k" "d" "nv" 1 rfl).1⟩

end KVStore
